import Mathlib

/-!
# Verification of the YouTube comment-scraper core

Shallow embedding of the repository's core logic:

* `src/services/youtubeService.ts` (the API-key-parameter variant): `getComments`,
  `getVideoDetails`, with the remote HTTP layer modelled as an explicit
  `Except String _` response argument and a count of issued network requests;
* `src/components/YouTubeCommentScraper.tsx`: `cleanFileName`,
  `generateFileContent`, the pagination loop of `fetchAndPrepareDownloads`,
  and `extractVideoId`.

Platform builtins used by the code (`String.prototype.normalize("NFD")`,
`String.prototype.toLowerCase`, the regex engine for the two `replace` calls,
and the WHATWG `URL` constructor) are modelled explicitly below on the
fragment of their behaviour the code exercises; each model carries a doc
comment saying what it covers.
-/

namespace YtScraper

/-! ## Data model -/

/-- `Comment` from `youtubeService.ts`: `replies?: Comment[]` is an optional
field, hence `Option (List Comment)` (absent vs. present list). -/
inductive Comment where
  | mk (id authorDisplayName authorProfileImageUrl textDisplay publishedAt : String)
       (likeCount : Nat) (replies : Option (List Comment)) : Comment

def Comment.id : Comment → String
  | .mk i _ _ _ _ _ _ => i

def Comment.authorDisplayName : Comment → String
  | .mk _ a _ _ _ _ _ => a

def Comment.authorProfileImageUrl : Comment → String
  | .mk _ _ u _ _ _ _ => u

def Comment.textDisplay : Comment → String
  | .mk _ _ _ t _ _ _ => t

def Comment.publishedAt : Comment → String
  | .mk _ _ _ _ p _ _ => p

def Comment.likeCount : Comment → Nat
  | .mk _ _ _ _ _ n _ => n

def Comment.replies : Comment → Option (List Comment)
  | .mk _ _ _ _ _ _ r => r

/-- `VideoDetails` from `youtubeService.ts`. -/
structure VideoDetails where
  title : String
  url : String
  description : String
deriving DecidableEq, Repr

/-- `DownloadFile` from `YouTubeCommentScraper.tsx`. -/
structure DownloadFile where
  filename : String
  content : String
deriving DecidableEq, Repr

/-- `ScrapeMode` from `YouTubeCommentScraper.tsx`. -/
inductive ScrapeMode where
  | comments | transcription | both
deriving DecidableEq, Repr

/-- The distinct throw sites of the service layer, as tagged variants
(`MissingCredential`, `VideoNotFound`, `RemoteRequestFailed` in the spec's
terminology; the code throws `Error` objects whose messages distinguish the
same three cases). -/
inductive YtError where
  | missingCredential
  | videoNotFound
  | remoteRequestFailed (msg : String)
deriving DecidableEq, Repr

/-! ## Remote responses (the JSON shapes the service layer reads) -/

/-- The snippet fields read from `item.snippet.topLevelComment.snippet` and
from `reply.snippet`. -/
structure RawSnippet where
  authorDisplayName : String
  authorProfileImageUrl : String
  textDisplay : String
  publishedAt : String
  likeCount : Nat
deriving DecidableEq, Repr

/-- One element of `item.replies.comments`. -/
structure RawReply where
  id : String
  snippet : RawSnippet
deriving DecidableEq, Repr

/-- `item.replies`: the optional replies object with its `comments` array
(which may itself be empty even when the object is present). -/
structure RawReplies where
  comments : List RawReply
deriving DecidableEq, Repr

/-- One element of `response.data.items` of the `commentThreads` endpoint. -/
structure RawItem where
  id : String
  topLevelSnippet : RawSnippet
  replies : Option RawReplies
deriving DecidableEq, Repr

/-- `response.data` of the `commentThreads` endpoint:
`items` plus the optional `nextPageToken`. -/
structure CommentThreadsResponse where
  items : List RawItem
  nextPageToken : Option String
deriving DecidableEq, Repr

/-- `response.data.items[i].snippet` of the `videos` endpoint. -/
structure VideoSnippet where
  title : String
  description : String
deriving DecidableEq, Repr

/-- `response.data` of the `videos` endpoint. -/
structure VideosResponse where
  items : List VideoSnippet
deriving DecidableEq, Repr

/-! ## Service layer (`youtubeService.ts`) -/

/-- The mapping of one reply in `getComments`: the object literal built from
`reply.snippet` has no `replies` field, so the field is absent (`none`). -/
def mapReply (r : RawReply) : Comment :=
  .mk r.id r.snippet.authorDisplayName r.snippet.authorProfileImageUrl
      r.snippet.textDisplay r.snippet.publishedAt r.snippet.likeCount none

/-- The mapping of one `items` entry in `getComments`: the comment is built
without `replies`, and `comment.replies` is assigned only under
`item.replies && item.replies.comments.length > 0`. -/
def mapItem (item : RawItem) : Comment :=
  let top := item.topLevelSnippet
  let base : Comment :=
    .mk item.id top.authorDisplayName top.authorProfileImageUrl
        top.textDisplay top.publishedAt top.likeCount none
  match item.replies with
  | some rs =>
      if rs.comments.length > 0 then
        .mk item.id top.authorDisplayName top.authorProfileImageUrl
            top.textDisplay top.publishedAt top.likeCount
            (some (rs.comments.map mapReply))
      else base
  | none => base

/-- `getComments` of `youtubeService.ts`. The axios call is modelled by the
`net` argument (the response the network would deliver, or a transport
failure message); the second component of the result counts the network
requests actually issued, so that "no network call" is expressible.
`if (!apiKey) throw ...` fires exactly on the empty string, the only falsy
string. -/
def getComments (apiKey : String) (_videoId : String) (_pageToken : Option String)
    (net : Except String CommentThreadsResponse) :
    Except YtError (List Comment × Option String) × Nat :=
  if apiKey = "" then (.error .missingCredential, 0)
  else
    match net with
    | .error msg => (.error (.remoteRequestFailed msg), 1)
    | .ok resp => (.ok (resp.items.map mapItem, resp.nextPageToken), 1)

/-- `getVideoDetails` of `youtubeService.ts`: empty-credential guard, then a
single request; zero `items` throws "Video not found", otherwise the
`VideoDetails` is built from `items[0].snippet`, with the watch URL
synthesized from the identifier. -/
def getVideoDetails (apiKey videoId : String)
    (net : Except String VideosResponse) : Except YtError VideoDetails × Nat :=
  if apiKey = "" then (.error .missingCredential, 0)
  else
    match net with
    | .error msg => (.error (.remoteRequestFailed msg), 1)
    | .ok resp =>
        match resp.items with
        | [] => (.error .videoNotFound, 1)
        | s :: _ =>
            (.ok { title := s.title
                   url := "https://www.youtube.com/watch?v=" ++ videoId
                   description := s.description }, 1)

/-! ## Markup stripping (`textDisplay.replace(/<[^>]*>?/gm, '')`)

Model of the JS regex replacement: the engine scans left to right; a match
can only start at `<`, where the greedy `[^>]*` consumes every character up
to (but not including) the next `>` or, failing that, the end of the input,
and the optional `>?` then consumes the `>` when present.  The whole match
is replaced by the empty string and scanning resumes after it (the `m` flag
only affects `^`/`$`, which the pattern does not use). -/

/-- Skip past the first `>` (inclusive); if there is none, consume
everything. This is what `[^>]*>?` swallows after the opening `<`. -/
def dropTag : List Char → List Char
  | [] => []
  | c :: rest => if c = '>' then rest else dropTag rest

/-- The left-to-right scan of the global replacement. -/
def stripTagsAux : List Char → List Char
  | [] => []
  | c :: rest =>
      if c = '<' then stripTagsAux (dropTag rest) else c :: stripTagsAux rest
termination_by l => l.length
decreasing_by
  · have hle : ∀ l : List Char, (dropTag l).length ≤ l.length := by
      intro l
      induction l with
      | nil => simp [dropTag]
      | cons c t ih =>
          simp only [dropTag]
          split
          · simp
          · exact Nat.le_succ_of_le ih
    exact Nat.lt_succ_of_le (hle rest)
  · simp

/-- The same scan as `stripTagsAux`, written as a structural two-state
machine (`inTag = true` while inside a pending match, i.e. after a `<`
whose `[^>]*>?` part is still being consumed); this form evaluates by
kernel reduction.  `stripAux_false_eq` proves it equal to the direct
scan. -/
def stripAux : Bool → List Char → List Char
  | _, [] => []
  | false, c :: rest =>
      if c = '<' then stripAux true rest else c :: stripAux false rest
  | true, c :: rest =>
      if c = '>' then stripAux false rest else stripAux true rest

/-- `s.replace(/<[^>]*>?/gm, '')` as used on `textDisplay` in
`generateFileContent`. -/
def stripTags (s : String) : String := ⟨stripAux false s.data⟩

/-! ## Filename normalization (`cleanFileName`) -/

/-- ASCII model of `String.prototype.toLowerCase`: maps `A`–`Z` to `a`–`z`
and fixes everything else.  In `cleanFileName` it is only ever applied to
characters in `[A-Za-z0-9_]` (the output alphabet of the preceding
`replace`), on which this agrees with the JS Unicode lowercasing. -/
def toLowerJs (c : Char) : Char :=
  if 65 ≤ c.toNat ∧ c.toNat ≤ 90 then Char.ofNat (c.toNat + 32) else c

/-- The character class `[a-zA-Z0-9_]` of `cleanFileName`'s second
`replace`. -/
def keepChar (c : Char) : Bool :=
  (65 ≤ c.toNat && c.toNat ≤ 90) || (97 ≤ c.toNat && c.toNat ≤ 122) ||
    (48 ≤ c.toNat && c.toNat ≤ 57) || (c.toNat == 95)

/-- `replace(/[^a-zA-Z0-9_]/g, '_')`, one character at a time. -/
def replaceBad (c : Char) : Char := if keepChar c then c else '_'

/-- The combining-diacritics block `[̀-ͯ]` removed by the first
`replace`. -/
def isCombiningMark (c : Char) : Bool :=
  0x300 ≤ c.toNat && c.toNat ≤ 0x36f

/-- Model of Unicode NFD (`String.prototype.normalize("NFD")`) at the level
of single characters: ASCII characters have no decomposition (true of real
NFD), and a representative table of Latin-1 letters with acute, grave,
circumflex, tilde and cedilla decomposes into base letter plus combining
mark, as real NFD does; characters outside the table are left alone. -/
def nfdChar (c : Char) : List Char :=
  if c.toNat < 128 then [c]
  else if c = 'á' then ['a', '\u0301']
  else if c = 'à' then ['a', '\u0300']
  else if c = 'â' then ['a', '\u0302']
  else if c = 'ã' then ['a', '\u0303']
  else if c = 'ç' then ['c', '\u0327']
  else if c = 'é' then ['e', '\u0301']
  else if c = 'ê' then ['e', '\u0302']
  else if c = 'í' then ['i', '\u0301']
  else if c = 'ó' then ['o', '\u0301']
  else if c = 'ô' then ['o', '\u0302']
  else if c = 'õ' then ['o', '\u0303']
  else if c = 'ú' then ['u', '\u0301']
  else if c = 'Á' then ['A', '\u0301']
  else if c = 'À' then ['A', '\u0300']
  else if c = 'Â' then ['A', '\u0302']
  else if c = 'Ã' then ['A', '\u0303']
  else if c = 'Ç' then ['C', '\u0327']
  else if c = 'É' then ['E', '\u0301']
  else if c = 'Ê' then ['E', '\u0302']
  else if c = 'Í' then ['I', '\u0301']
  else if c = 'Ó' then ['O', '\u0301']
  else if c = 'Ô' then ['O', '\u0302']
  else if c = 'Õ' then ['O', '\u0303']
  else if c = 'Ú' then ['U', '\u0301']
  else [c]

/-- NFD of a character sequence. -/
def nfd (l : List Char) : List Char := l.flatMap nfdChar

/-- `cleanFileName` of `YouTubeCommentScraper.tsx` on character lists:
NFD-normalize, delete the combining marks, replace everything outside
`[a-zA-Z0-9_]` by `_`, lowercase the result. -/
def cleanFileNameL (l : List Char) : List Char :=
  (((nfd l).filter (fun c => !isCombiningMark c)).map replaceBad).map toLowerJs

/-- `cleanFileName` of `YouTubeCommentScraper.tsx`. -/
def cleanFileName (s : String) : String := ⟨cleanFileNameL s.data⟩

/-! ## Formatter (`generateFileContent`) -/

/-- The `data` parameter of `generateFileContent`: `string | Comment[]`,
always passed consistently with `type` by the two call sites. -/
inductive FileData where
  | comments (cs : List Comment)
  | transcription (text : String)

/-- One reply line: two-space indent, author, colon, stripped text. -/
def replyLine (r : Comment) : String :=
  "  " ++ r.authorDisplayName ++ ": " ++ stripTags r.textDisplay ++ "\n"

/-- The lines contributed by one top-level comment in the `forEach` of
`generateFileContent`: its own line, then (only when `replies` is present
and non-empty) one line per reply. -/
def commentBlock (c : Comment) : String :=
  c.authorDisplayName ++ ": " ++ stripTags c.textDisplay ++ "\n" ++
    (match c.replies with
     | some rs => if rs.length > 0 then String.join (rs.map replyLine) else ""
     | none => "")

/-- `generateFileContent` of `YouTubeCommentScraper.tsx`: header (title,
description, source line, separator), then either the comment lines or the
raw transcription text. -/
def generateFileContent (title description url : String) (data : FileData) :
    String :=
  let header :=
    title ++ "\n\n" ++ description ++ "\n\n" ++
      "Conteúdo extraído de: " ++ url ++ "\n\n" ++
      "-------------------------------------------------------\n\n"
  match data with
  | .comments cs => header ++ String.join (cs.map commentBlock)
  | .transcription text => header ++ text

/-! ## Pagination loop of `fetchAndPrepareDownloads` -/

/-- JS truthiness of the `string | undefined` loop variable
`currentPageToken`: `undefined` and `""` are falsy, every other string is
truthy. -/
def tokTruthy : Option String → Bool
  | none => false
  | some t => t ≠ ""

/-- The `do … while (currentPageToken)` loop, as a fold over the fetched
pages.  `fetch` is one `getComments` call (already specialised to the
credential, identifier and mocked network); the loop feeds each call's
returned token into the next call and appends each page's comments in
arrival order.  The result also records the list of tokens passed to the
successive calls (so its length is the number of fetch calls made).  A
thrown error aborts the loop, discarding the accumulator.  `fuel` bounds
the unbounded JS loop; exhaustion returns `none` (the JS loop would still
be running). -/
def commentLoop (fetch : Option String → Except YtError (List Comment × Option String)) :
    Nat → Option String → Option (Except YtError (List Comment) × List (Option String))
  | 0, _ => none
  | fuel + 1, tok =>
      match fetch tok with
      | .error e => some (.error e, [tok])
      | .ok (cs, next) =>
          if tokTruthy next then
            match commentLoop fetch fuel next with
            | none => none
            | some (.error e, toks) => some (.error e, tok :: toks)
            | some (.ok rest, toks) => some (.ok (cs ++ rest), tok :: toks)
          else some (.ok cs, [tok])

/-- `fetchAndPrepareDownloads` of `YouTubeCommentScraper.tsx`, as the list
of download files the run produces.  The two empty-field early returns and
every caught exception leave no prepared files (`setDownloadFiles(null)`),
modelled as `none`; `fuel` bounds the pagination loop, with exhaustion also
reported as `none` (the run has not produced documents).  `getTranscription`
never fails and returns a static text, passed in as `transcriptionText`. -/
def fetchAndPrepareDownloads (apiKey videoId : String) (mode : ScrapeMode)
    (videosNet : Except String VideosResponse)
    (commentsNet : Option String → Except String CommentThreadsResponse)
    (transcriptionText : String) (fuel : Nat) : Option (List DownloadFile) :=
  if apiKey = "" then none
  else if videoId = "" then none
  else
    match (getVideoDetails apiKey videoId videosNet).1 with
    | .error _ => none
    | .ok details =>
        let transFile : DownloadFile :=
          { filename := "Transcrição_" ++ cleanFileName details.title ++ ".txt"
            content := generateFileContent details.title details.description
              details.url (.transcription transcriptionText) }
        if mode = ScrapeMode.comments ∨ mode = ScrapeMode.both then
          match commentLoop
              (fun tok => (getComments apiKey videoId tok (commentsNet tok)).1)
              fuel none with
          | none => none
          | some (.error _, _) => none
          | some (.ok allComments, _) =>
              let commentsFile : DownloadFile :=
                { filename := "Comentários_" ++ cleanFileName details.title ++ ".txt"
                  content := generateFileContent details.title details.description
                    details.url (.comments allComments) }
              if mode = ScrapeMode.both then some [commentsFile, transFile]
              else some [commentsFile]
        else some [transFile]

/-! ## Identifier normalizer (`extractVideoId`)

`extractVideoId` builds `new URL(url)` inside a `try`; a parse failure is
caught and falls through to returning the input.  The WHATWG `URL`
constructor is a platform builtin; `parseURL` below models it on the
`http(s)://` URLs the component works with (scheme, optional userinfo,
hostname lowercased, optional port, path, query), reporting everything
else as a parse failure (`none`), which lands in the same "treat the input
as a raw identifier" branch as a JS parse exception.  Percent-decoding of
query values is not modelled (the identifiers involved contain no percent
escapes). -/

/-- Does `l` start with `p`? -/
def startsWithL : List Char → List Char → Bool
  | _, [] => true
  | [], _ :: _ => false
  | c :: cs, p :: ps => c = p && startsWithL cs ps

/-- Does `l` contain `p` as a contiguous substring?  Models JS
`String.prototype.includes`. -/
def containsSubL (p : List Char) : List Char → Bool
  | [] => startsWithL [] p
  | c :: t => startsWithL (c :: t) p || containsSubL p t

/-- `s.includes(pat)` on strings. -/
def strIncludes (s pat : String) : Bool := containsSubL pat.data s.data

/-- The three `URL` members `extractVideoId` reads: `hostname`,
`pathname` and the `v` entries of `searchParams`. -/
structure URLParts where
  hostname : String
  pathname : String
  search : List (String × String)
deriving DecidableEq, Repr

/-- Split a character list at every occurrence of `sep` (the separator is
dropped; adjacent separators yield empty segments, as JS `split` does). -/
def splitOnChar (sep : Char) : List Char → List (List Char)
  | [] => [[]]
  | c :: rest =>
      let r := splitOnChar sep rest
      if c = sep then [] :: r
      else
        match r with
        | [] => [[c]]
        | h :: t => (c :: h) :: t

/-- `URLSearchParams` parsing of a raw query string: split on `&`, skip
empty segments, key is the part before the first `=`, value everything
after it. -/
def parseQuery (q : List Char) : List (String × String) :=
  (splitOnChar '&' q).filterMap fun seg =>
    if seg = [] then none
    else
      let k := seg.takeWhile fun c => c ≠ '='
      match seg.dropWhile fun c => c ≠ '=' with
      | [] => some (⟨k⟩, "")
      | _ :: v => some (⟨k⟩, ⟨v⟩)

/-- `searchParams.has(k)` / `searchParams.get(k)` combined: the first
value bound to `k`, if any. -/
def lookupParam (ps : List (String × String)) (k : String) : Option String :=
  (ps.find? fun p => p.1 = k).map Prod.snd

/-- `pathname.substring(1)`: the string without its first character. -/
def stringTail (s : String) : String := ⟨s.data.drop 1⟩

/-- Model of `new URL(s)` (see the section comment). -/
def parseURL (s : String) : Option URLParts :=
  let l := s.data
  let rest :=
    if startsWithL l "https://".data then some (l.drop 8)
    else if startsWithL l "http://".data then some (l.drop 7)
    else none
  match rest with
  | none => none
  | some rest =>
      let authority := rest.takeWhile fun c => c ≠ '/' && c ≠ '?' && c ≠ '#'
      let afterAuth := rest.drop authority.length
      let hostport := (splitOnChar '@' authority).getLastD []
      let host := hostport.takeWhile fun c => c ≠ ':'
      if host = [] then none
      else
        let path := afterAuth.takeWhile fun c => c ≠ '?' && c ≠ '#'
        let afterPath := afterAuth.drop path.length
        let query :=
          match afterPath with
          | '?' :: q => q.takeWhile fun c => c ≠ '#'
          | _ => []
        some { hostname := ⟨host.map toLowerJs⟩
               pathname := if path = [] then "/" else ⟨path⟩
               search := parseQuery query }

/-- `extractVideoId` of `YouTubeCommentScraper.tsx`: on a parsed URL whose
hostname contains `youtube.com` or `youtu.be`, prefer the `v` query
parameter, else on the exact host `youtu.be` return the path without its
leading `/` (`pathname.substring(1)`); every other case (including parse
failure) returns the input unchanged. -/
def extractVideoId (url : String) : String :=
  match parseURL url with
  | none => url
  | some u =>
      if strIncludes u.hostname "youtube.com" || strIncludes u.hostname "youtu.be" then
        match lookupParam u.search "v" with
        | some v => v
        | none =>
            if u.hostname = "youtu.be" then stringTail u.pathname else url
      else url

/-! ## Spec-side definitions

These follow the words of the specification, not the code; they exist to be
compared with the code-derived definitions above. -/

/-- The markup-stripping procedure exactly as the spec's claim words it:
"delete every shortest substring that begins with `<` and ends with the
next `>`, and nothing else", so a `<` with no later `>` leaves the text
after it intact. -/
def specStripShortest : List Char → List Char
  | [] => []
  | c :: rest =>
      if c = '<' then
        if rest.contains '>' then specStripShortest (dropTag rest)
        else c :: rest
      else c :: specStripShortest rest
termination_by l => l.length
decreasing_by
  · have hle : ∀ l : List Char, (dropTag l).length ≤ l.length := by
      intro l
      induction l with
      | nil => simp [dropTag]
      | cons c t ih =>
          simp only [dropTag]
          split
          · simp
          · exact Nat.le_succ_of_le ih
    exact Nat.lt_succ_of_le (hle rest)
  · simp

/-- String form of `specStripShortest`. -/
def specStripClaim (s : String) : String := ⟨specStripShortest s.data⟩

/-- The amended stripping specification, in the "find `<`, skip to the next
`>`, delete the span" phrasing of the spec's design notes, with the
unpaired-`<` case deleting through the end of the text: emit the prefix up
to the first `<`; if the `<` has a closing `>`, continue after it,
otherwise everything from the `<` on is deleted. -/
def specStripAmendedL (l : List Char) : List Char :=
  match h : l.dropWhile (fun c => c ≠ '<') with
  | [] => l.takeWhile (fun c => c ≠ '<')
  | _ :: after =>
      match h2 : after.dropWhile (fun c => c ≠ '>') with
      | [] => l.takeWhile (fun c => c ≠ '<')
      | _ :: rest3 => l.takeWhile (fun c => c ≠ '<') ++ specStripAmendedL rest3
termination_by l.length
decreasing_by
  have ha : after.length < l.length := by
    have hs : (List.dropWhile (fun c => c ≠ '<') l).length ≤ l.length :=
      (List.dropWhile_suffix _).length_le
    rw [h] at hs
    simp at hs
    omega
  have hr : rest3.length < after.length + 1 := by
    have hs : (List.dropWhile (fun c => c ≠ '>') after).length ≤ after.length :=
      (List.dropWhile_suffix _).length_le
    rw [h2] at hs
    simp at hs
    omega
  omega

/-- String form of `specStripAmendedL`. -/
def specStripAmended (s : String) : String := ⟨specStripAmendedL s.data⟩

/-- The alphabet of `cleanFileName`'s output: `[a-z0-9_]`. -/
def isOutChar (c : Char) : Bool :=
  (97 ≤ c.toNat && c.toNat ≤ 122) || (48 ≤ c.toNat && c.toNat ≤ 57) || (c.toNat == 95)

/-- The document content the spec's end-to-end scenario promises (its
source line reads "Comentários extraídos de:"). -/
def specScenarioContent : String :=
  "Test Video\n\nDesc\n\nComentários extraídos de: https://www.youtube.com/watch?v=XYZ\n\n-------------------------------------------------------\n\nAuthor1: text1\n  ReplyAuthor: replytext\nAuthor2: text2\n"

/-! ## Theorems -/

theorem toNat_ofNat_of_valid (n : Nat) (h : n.isValidChar) :
    (Char.ofNat n).toNat = n := by
  simp [Char.ofNat, h, Char.ofNatAux, Char.toNat, UInt32.toNat]

theorem isOut_toLowerJs_replaceBad (c : Char) :
    isOutChar (toLowerJs (replaceBad c)) = true := by
  by_cases hk : keepChar c = true
  · simp only [replaceBad, hk, if_true]
    simp only [keepChar, Bool.or_eq_true, Bool.and_eq_true, decide_eq_true_eq,
      beq_iff_eq] at hk
    rcases hk with ((⟨h1, h2⟩ | ⟨h1, h2⟩) | ⟨h1, h2⟩) | h1
    · have hv : (c.toNat + 32).isValidChar := by
        constructor
        omega
      simp only [toLowerJs, if_pos (And.intro h1 h2)]
      simp [isOutChar, toNat_ofNat_of_valid _ hv]
      omega
    · simp only [toLowerJs]
      rw [if_neg (by omega)]
      simp [isOutChar]
      omega
    · simp only [toLowerJs]
      rw [if_neg (by omega)]
      simp [isOutChar]
      omega
    · simp only [toLowerJs]
      rw [if_neg (by omega)]
      simp [isOutChar]
      omega
  · simp only [Bool.not_eq_true] at hk
    simp only [replaceBad, hk, Bool.false_eq_true, if_false]
    decide

theorem nfdChar_of_isOut (c : Char) (h : isOutChar c = true) : nfdChar c = [c] := by
  simp only [isOutChar, Bool.or_eq_true, Bool.and_eq_true, decide_eq_true_eq,
    beq_iff_eq] at h
  have : c.toNat < 128 := by omega
  simp [nfdChar, this]

theorem not_combining_of_isOut (c : Char) (h : isOutChar c = true) :
    isCombiningMark c = false := by
  simp only [isOutChar, Bool.or_eq_true, Bool.and_eq_true, decide_eq_true_eq,
    beq_iff_eq] at h
  simp [isCombiningMark]
  omega

theorem replaceBad_of_isOut (c : Char) (h : isOutChar c = true) :
    replaceBad c = c := by
  simp only [isOutChar, Bool.or_eq_true, Bool.and_eq_true, decide_eq_true_eq,
    beq_iff_eq] at h
  have : keepChar c = true := by
    simp [keepChar]
    omega
  simp [replaceBad, this]

theorem toLowerJs_of_isOut (c : Char) (h : isOutChar c = true) :
    toLowerJs c = c := by
  simp only [isOutChar, Bool.or_eq_true, Bool.and_eq_true, decide_eq_true_eq,
    beq_iff_eq] at h
  simp only [toLowerJs]
  rw [if_neg (by omega)]

theorem cleanFileNameL_of_isOut (l : List Char) (h : ∀ c ∈ l, isOutChar c = true) :
    cleanFileNameL l = l := by
  induction l with
  | nil => rfl
  | cons c t ih =>
      have hc := h c (List.mem_cons_self c t)
      have ht : ∀ x ∈ t, isOutChar x = true := fun x hx => h x (List.mem_cons_of_mem c hx)
      simp only [cleanFileNameL, nfd, List.flatMap_cons, nfdChar_of_isOut c hc,
        List.singleton_append, List.filter_cons, not_combining_of_isOut c hc,
        Bool.not_false, if_true, List.map_cons, replaceBad_of_isOut c hc,
        toLowerJs_of_isOut c hc]
      simpa [cleanFileNameL, nfd] using ih ht

theorem mem_cleanFileNameL_isOut (l : List Char) :
    ∀ c ∈ cleanFileNameL l, isOutChar c = true := by
  intro c hc
  simp only [cleanFileNameL, List.mem_map] at hc
  obtain ⟨a, ha, rfl⟩ := hc
  obtain ⟨b, hb, rfl⟩ := ha
  exact isOut_toLowerJs_replaceBad b

/-- C7: filename normalization is idempotent — for every string `s`,
`cleanFileName (cleanFileName s) = cleanFileName s`: the output alphabet
`[a-z0-9_]` is untouched by NFD, holds no combining marks, survives the
character-class replacement and is already lowercase. -/
theorem cleanFileName_idempotent (s : String) :
    cleanFileName (cleanFileName s) = cleanFileName s := by
  simp only [cleanFileName]
  congr 1
  exact cleanFileNameL_of_isOut _ (mem_cleanFileNameL_isOut s.data)

/-- Sanity check of the spec's normalization example. -/
theorem cleanFileName_example : cleanFileName "Café É Ótimo!" = "cafe_e_otimo_" := by
  rfl

theorem stripTagsAux_no_lt_append (pre rest : List Char)
    (h : ∀ c ∈ pre, ¬ c = '<') :
    stripTagsAux (pre ++ rest) = pre ++ stripTagsAux rest := by
  induction pre with
  | nil => simp
  | cons c t ih =>
      have hc := h c (List.mem_cons_self c t)
      rw [List.cons_append, stripTagsAux, if_neg hc,
        ih fun x hx => h x (List.mem_cons_of_mem c hx), List.cons_append]

theorem dropTag_eq_tail_dropWhile (l : List Char) :
    dropTag l = (l.dropWhile fun c => c ≠ '>').tail := by
  induction l with
  | nil => rfl
  | cons c t ih =>
      by_cases hc : c = '>'
      · subst hc
        rw [dropTag, if_pos rfl, List.dropWhile_cons_of_neg (by simp)]
        rfl
      · rw [dropTag, if_neg hc, List.dropWhile_cons_of_pos (by simpa using hc), ih]

theorem dropWhile_head_false {α : Type _} (p : α → Bool) (l : List α) :
    ∀ x t, l.dropWhile p = x :: t → p x = false := by
  induction l with
  | nil =>
      intro x t h
      simp [List.dropWhile] at h
  | cons a l ih =>
      intro x t h
      by_cases ha : p a
      · rw [List.dropWhile_cons_of_pos ha] at h
        exact ih x t h
      · rw [List.dropWhile_cons_of_neg ha] at h
        cases h
        simpa using ha

theorem specStripAmendedL_case1 (l : List Char)
    (h : l.dropWhile (fun c => c ≠ '<') = []) :
    specStripAmendedL l = l.takeWhile (fun c => c ≠ '<') := by
  rw [specStripAmendedL]
  split
  · rfl
  · rename_i x after heq
    rw [h] at heq
    cases heq

theorem specStripAmendedL_case2 (l : List Char) (x : Char) (after : List Char)
    (h : l.dropWhile (fun c => c ≠ '<') = x :: after)
    (h2 : after.dropWhile (fun c => c ≠ '>') = []) :
    specStripAmendedL l = l.takeWhile (fun c => c ≠ '<') := by
  rw [specStripAmendedL]
  split
  · rfl
  · rename_i x' after' heq
    rw [h] at heq
    cases heq
    split
    · rfl
    · rename_i y rest3 heq2
      rw [h2] at heq2
      cases heq2

theorem specStripAmendedL_case3 (l : List Char) (x : Char) (after : List Char)
    (y : Char) (rest3 : List Char)
    (h : l.dropWhile (fun c => c ≠ '<') = x :: after)
    (h2 : after.dropWhile (fun c => c ≠ '>') = y :: rest3) :
    specStripAmendedL l =
      l.takeWhile (fun c => c ≠ '<') ++ specStripAmendedL rest3 := by
  rw [specStripAmendedL]
  split
  · rename_i heq
    rw [h] at heq
    cases heq
  · rename_i x' after' heq
    rw [h] at heq
    cases heq
    split
    · rename_i heq2
      rw [h2] at heq2
      cases heq2
    · rename_i y' rest3' heq2
      rw [h2] at heq2
      cases heq2
      rfl

theorem stripTagsAux_nil : stripTagsAux [] = [] := by
  rw [stripTagsAux]

theorem stripTagsAux_cons_lt (rest : List Char) :
    stripTagsAux ('<' :: rest) = stripTagsAux (dropTag rest) := by
  rw [stripTagsAux, if_pos rfl]

theorem stripTagsAux_of_no_lt (pre : List Char) (h : ∀ c ∈ pre, ¬ c = '<') :
    stripTagsAux pre = pre := by
  have h2 := stripTagsAux_no_lt_append pre [] h
  rw [List.append_nil] at h2
  rw [h2, stripTagsAux_nil, List.append_nil]

theorem takeWhile_ne_lt (l : List Char) :
    ∀ c ∈ l.takeWhile (fun c => c ≠ '<'), ¬ c = '<' := by
  intro c hc
  have := List.mem_takeWhile_imp hc
  simpa using this

theorem stripTagsAux_eq_amended (l : List Char) :
    stripTagsAux l = specStripAmendedL l := by
  induction l using specStripAmendedL.induct with
  | case1 l h =>
      have hl := List.takeWhile_append_dropWhile (p := fun c => c ≠ '<') (l := l)
      rw [h, List.append_nil] at hl
      have hall : ∀ c ∈ l, ¬ c = '<' := by
        have h3 := List.dropWhile_eq_nil_iff.mp h
        intro c hc
        simpa using h3 c hc
      rw [specStripAmendedL_case1 l h, hl, stripTagsAux_of_no_lt l hall]
  | case2 l x after h h2 =>
      have hx : x = '<' := by
        have h3 := dropWhile_head_false _ l x after h
        simpa using h3
      subst hx
      have hl := List.takeWhile_append_dropWhile (p := fun c => c ≠ '<') (l := l)
      rw [h] at hl
      rw [specStripAmendedL_case2 l _ after h h2]
      conv_lhs => rw [← hl]
      rw [stripTagsAux_no_lt_append _ _ (takeWhile_ne_lt l), stripTagsAux_cons_lt,
        dropTag_eq_tail_dropWhile, h2]
      simp [stripTagsAux_nil]
  | case3 l x after h y rest3 h2 ih =>
      have hx : x = '<' := by
        have h3 := dropWhile_head_false _ l x after h
        simpa using h3
      subst hx
      have hl := List.takeWhile_append_dropWhile (p := fun c => c ≠ '<') (l := l)
      rw [h] at hl
      rw [specStripAmendedL_case3 l _ after y rest3 h h2]
      conv_lhs => rw [← hl]
      rw [stripTagsAux_no_lt_append _ _ (takeWhile_ne_lt l), stripTagsAux_cons_lt,
        dropTag_eq_tail_dropWhile, h2, List.tail_cons, ih]

theorem stripAux_true_eq (l : List Char) :
    stripAux true l = stripAux false (dropTag l) := by
  induction l with
  | nil => rfl
  | cons c t ih =>
      by_cases hc : c = '>'
      · subst hc
        rw [stripAux, if_pos rfl, dropTag, if_pos rfl]
      · rw [stripAux, if_neg hc, dropTag, if_neg hc, ih]

theorem stripAux_false_eq (l : List Char) :
    stripAux false l = stripTagsAux l := by
  induction l using stripTagsAux.induct with
  | case1 =>
      rw [stripTagsAux_nil]
      rfl
  | case2 rest ih =>
      rw [stripAux, if_pos rfl, stripTagsAux_cons_lt, stripAux_true_eq, ih]
  | case3 c rest hc ih =>
      rw [stripAux, if_neg hc, stripTagsAux, if_neg hc, ih]

/-- C2 (counterexample): on `"a<b"` — a `<` with no following `>` — the
code's stripping deletes from the `<` to the end of the string, giving
`"a"`, while the claim's "nothing else is deleted / the text after a
lone `<` stays intact" procedure gives `"a<b"`. -/
theorem stripTags_unclosed_lt_counterexample :
    stripTags "a<b" = "a" ∧ specStripClaim "a<b" = "a<b" ∧
      stripTags "a<b" ≠ specStripClaim "a<b" := by
  have hl : specStripShortest "a<b".data = "a<b".data := by
    show specStripShortest ['a', '<', 'b'] = ['a', '<', 'b']
    simp [specStripShortest]
  have h2 : specStripClaim "a<b" = "a<b" := by
    simp only [specStripClaim, hl]
  refine ⟨rfl, h2, ?_⟩
  rw [h2]
  decide

/-- C2 (amended): the markup stripping deletes every shortest substring
beginning with `<` and ending at the next `>`, and in addition deletes
from any `<` with no later `>` through the end of the string; nothing
else.  `stripTags` agrees with this specification on every string. -/
theorem stripTags_matches_amended_spec (s : String) :
    stripTags s = specStripAmended s := by
  simp only [stripTags, specStripAmended]
  rw [stripAux_false_eq, stripTagsAux_eq_amended]

/-- Sanity check of the spec's stripping example. -/
theorem stripTags_example : stripTags "Hello <b>world</b>!" = "Hello world!" := by
  rfl

/-- C9: an input that does not parse as an absolute URL is returned
unchanged — the parse failure lands in the catch-equivalent branch, which
is the normal "input is already a raw identifier" path (and, the model
being a total function, no exception escapes). -/
theorem extractVideoId_parse_fail (s : String) (h : parseURL s = none) :
    extractVideoId s = s := by
  simp only [extractVideoId, h]

/-- Witness for C9 at the bare identifier `"dQw4w9WgXcQ"`. -/
theorem extractVideoId_parse_fail_witness :
    parseURL "dQw4w9WgXcQ" = none ∧
      extractVideoId "dQw4w9WgXcQ" = "dQw4w9WgXcQ" :=
  ⟨rfl, extractVideoId_parse_fail "dQw4w9WgXcQ" rfl⟩

/-- C10: host recognition is substring containment (`hostname.includes`),
not exact-domain matching — any parsed URL whose hostname merely contains
`youtube.com` or `youtu.be` and which carries a `v` query parameter has
that parameter's value returned. -/
theorem extractVideoId_v_param (s : String) (u : URLParts) (v : String)
    (hp : parseURL s = some u)
    (hh : (strIncludes u.hostname "youtube.com" || strIncludes u.hostname "youtu.be") = true)
    (hv : lookupParam u.search "v" = some v) :
    extractVideoId s = v := by
  simp only [extractVideoId, hp, hh, hv, if_true]

/-- Witness for C10 at the non-YouTube host `youtube.com.evil.example`,
which contains `youtube.com` as a substring. -/
theorem extractVideoId_v_param_witness :
    extractVideoId "https://youtube.com.evil.example/watch?v=xyz" = "xyz" := by
  have h := extractVideoId_v_param "https://youtube.com.evil.example/watch?v=xyz"
    ⟨"youtube.com.evil.example", "/watch", [("v", "xyz")]⟩ "xyz" rfl (by decide) rfl
  rw [h]

/-- C3 (counterexample): for the multi-segment short link
`https://youtu.be/ABC123/extra` the code returns the whole path stripped
of the leading `/` — `"ABC123/extra"` — not the first path segment
`"ABC123"` the claim promises. -/
theorem extractVideoId_multiseg_counterexample :
    extractVideoId "https://youtu.be/ABC123/extra" = "ABC123/extra" ∧
      "ABC123/extra" ≠ "ABC123" := by
  constructor
  · rfl
  · decide

/-- C3 (amended): on the exact short-link host `youtu.be` with no `v`
query parameter, `extractVideoId` returns the URL's entire path stripped
of its leading separator (`pathname.substring(1)`) — which equals the
first path segment only when the path has a single segment. -/
theorem extractVideoId_shortlink (s : String) (u : URLParts)
    (hp : parseURL s = some u) (hh : u.hostname = "youtu.be")
    (hv : lookupParam u.search "v" = none) :
    extractVideoId s = stringTail u.pathname := by
  simp only [extractVideoId, hp, hh, hv]
  have hcond :
      (strIncludes "youtu.be" "youtube.com" || strIncludes "youtu.be" "youtu.be") = true := by
    decide
  rw [if_pos hcond]
  simp

/-- Witness for C3 (amended) at the single-segment short link, where the
stripped path coincides with the first segment. -/
theorem extractVideoId_shortlink_witness :
    extractVideoId "https://youtu.be/ABC123" = "ABC123" := by
  have h := extractVideoId_shortlink "https://youtu.be/ABC123"
    ⟨"youtu.be", "/ABC123", []⟩ rfl rfl rfl
  rw [h]
  rfl

/-- Sanity check of the spec's watch-URL normalization example. -/
theorem extractVideoId_watch_example :
    extractVideoId "https://www.youtube.com/watch?v=ABC123" = "ABC123" := by
  rfl

/-- C6: with an empty credential, `getComments` and `getVideoDetails`
both fail with the missing-credential error and issue zero network
requests, for every identifier, continuation token and would-be network
response. -/
theorem empty_credential_no_request (videoId : String) (tok : Option String)
    (netC : Except String CommentThreadsResponse) (netV : Except String VideosResponse) :
    getComments "" videoId tok netC = (.error .missingCredential, 0) ∧
      getVideoDetails "" videoId netV = (.error .missingCredential, 0) := by
  constructor
  · rfl
  · rfl

theorem mapItem_replies (item : RawItem) :
    (mapItem item).replies = none ∨
      ∃ l, (mapItem item).replies = some l ∧ l ≠ [] ∧ ∀ r ∈ l, r.replies = none := by
  rw [mapItem]
  cases hrep : item.replies with
  | none =>
      left
      rfl
  | some rs =>
      by_cases hl : rs.comments.length > 0
      · right
        refine ⟨rs.comments.map mapReply, ?_, ?_, ?_⟩
        · simp [hl, Comment.replies]
        · intro hnil
          rw [List.map_eq_nil_iff] at hnil
          rw [hnil] at hl
          simp at hl
        · intro r hr
          obtain ⟨rr, hrr, rfl⟩ := List.mem_map.mp hr
          rfl
      · left
        simp [hl, Comment.replies]

/-- C8: every comment a successful `getComments` returns has `replies`
either absent or a non-empty list (an empty remote replies collection
yields absent), and no reply itself carries replies, so reply depth never
exceeds one. -/
theorem getComments_replies_invariant (apiKey vid : String) (tok : Option String)
    (resp : CommentThreadsResponse) (cs : List Comment) (next : Option String)
    (h : (getComments apiKey vid tok (.ok resp)).1 = .ok (cs, next)) :
    ∀ c ∈ cs,
      (c.replies = none ∨ ∃ l, c.replies = some l ∧ l ≠ []) ∧
        (∀ l, c.replies = some l → ∀ r ∈ l, r.replies = none) := by
  intro c hc
  by_cases hk : apiKey = ""
  · rw [getComments, if_pos hk] at h
    simp at h
  · rw [getComments, if_neg hk] at h
    simp at h
    obtain ⟨hcs, hnext⟩ := h
    subst hcs
    obtain ⟨item, hitem, rfl⟩ := List.mem_map.mp hc
    rcases mapItem_replies item with hr | ⟨l, hl, hne, hflat⟩
    · constructor
      · left
        exact hr
      · intro l hl
        rw [hr] at hl
        cases hl
    · constructor
      · right
        exact ⟨l, hl, hne⟩
      · intro l2 hl2
        rw [hl] at hl2
        cases hl2
        exact hflat

/-- Witness for C8: the invariant instantiated at the first comment of a
concrete page (one replied-to comment, one whose remote replies object is
present but empty and is mapped to absent). -/
theorem getComments_replies_invariant_witness :
    ((Comment.mk "i1" "A1" "u1" "t1" "p1" 1
          (some [Comment.mk "r1" "RA" "u2" "rt" "p2" 0 none])).replies = none ∨
        ∃ l, (Comment.mk "i1" "A1" "u1" "t1" "p1" 1
          (some [Comment.mk "r1" "RA" "u2" "rt" "p2" 0 none])).replies = some l ∧ l ≠ []) ∧
      (∀ l, (Comment.mk "i1" "A1" "u1" "t1" "p1" 1
          (some [Comment.mk "r1" "RA" "u2" "rt" "p2" 0 none])).replies = some l →
        ∀ r ∈ l, r.replies = none) :=
  getComments_replies_invariant "K" "vid" none
    ⟨[⟨"i1", ⟨"A1", "u1", "t1", "p1", 1⟩, some ⟨[⟨"r1", ⟨"RA", "u2", "rt", "p2", 0⟩⟩]⟩⟩,
      ⟨"i2", ⟨"A2", "u3", "t2", "p3", 2⟩, some ⟨[]⟩⟩], none⟩
    _ none rfl
    (Comment.mk "i1" "A1" "u1" "t1" "p1" 1
      (some [Comment.mk "r1" "RA" "u2" "rt" "p2" 0 none]))
    (List.mem_cons_self _ _)

/-- C4 (counterexample): the loop condition is JS truthiness, so a page
carrying the empty-string continuation token terminates the loop.  A
mocked 3-page sequence whose first page carries token `""` produces one
fetch call, not the three the claim promises. -/
theorem commentLoop_empty_token_counterexample :
    commentLoop
        (fun tok =>
          if tok = none then Except.ok ([], some "")
          else if tok = some "" then Except.ok ([], some "t2")
          else Except.ok ([], none))
        5 none = some (.ok [], [none]) ∧ [(none : Option String)].length ≠ 3 := by
  constructor
  · rfl
  · decide

/-- C4 (amended): for a mocked 3-page sequence whose first two pages carry
non-empty (and distinct) continuation tokens and whose last carries none,
the loop starts with no token, feeds each returned token into the next
call, makes exactly 3 calls (the recorded token trace), accumulates the
pages in arrival order and the total count is the sum of the page counts;
termination happens at the first call whose returned token is absent (or
empty, by truthiness). -/
theorem commentLoop_three_pages (c1 c2 c3 : List Comment) (t1 t2 : String)
    (h1 : t1 ≠ "") (h2 : t2 ≠ "") (h12 : t1 ≠ t2) (fuel : Nat) :
    commentLoop
        (fun tok =>
          if tok = none then .ok (c1, some t1)
          else if tok = some t1 then .ok (c2, some t2)
          else .ok (c3, none))
        (fuel + 3) none
      = some (.ok (c1 ++ c2 ++ c3), [none, some t1, some t2]) ∧
      (c1 ++ c2 ++ c3).length = c1.length + c2.length + c3.length := by
  have h21 : t2 ≠ t1 := fun h => h12 h.symm
  constructor
  · simp [commentLoop, tokTruthy, h1, h2, h21]
  · simp
    omega

/-- Witness for C4 (amended) on concrete pages of sizes 1, 0 and 1. -/
theorem commentLoop_three_pages_witness :
    commentLoop
        (fun tok =>
          if tok = none then .ok ([Comment.mk "i1" "A" "u" "t" "p" 0 none], some "p2tok")
          else if tok = some "p2tok" then .ok ([], some "p3tok")
          else .ok ([Comment.mk "i2" "B" "u" "t" "p" 0 none], none))
        (0 + 3) none
      = some (.ok ([Comment.mk "i1" "A" "u" "t" "p" 0 none] ++ [] ++
                [Comment.mk "i2" "B" "u" "t" "p" 0 none]),
              [none, some "p2tok", some "p3tok"]) ∧
      ([Comment.mk "i1" "A" "u" "t" "p" 0 none] ++ [] ++
          [Comment.mk "i2" "B" "u" "t" "p" 0 none]).length
        = [Comment.mk "i1" "A" "u" "t" "p" 0 none].length +
            ([] : List Comment).length +
            [Comment.mk "i2" "B" "u" "t" "p" 0 none].length :=
  commentLoop_three_pages [Comment.mk "i1" "A" "u" "t" "p" 0 none] []
    [Comment.mk "i2" "B" "u" "t" "p" 0 none] "p2tok" "p3tok"
    (by decide) (by decide) (by decide) 0

/-- C5: the aggregate run is atomic with respect to errors — a metadata
response with zero items makes `getVideoDetails` fail with the
video-not-found error, and whenever the metadata fetch fails that way or
the pagination loop ends in an error at any page, the run produces no
documents at all (no partial output from earlier pages). -/
theorem fetchAndPrepare_atomic (apiKey videoId : String) (mode : ScrapeMode)
    (videosNet : Except String VideosResponse)
    (commentsNet : Option String → Except String CommentThreadsResponse)
    (tt : String) (fuel : Nat) :
    ((videosNet = .ok ⟨[]⟩ ∧ apiKey ≠ "") →
        (getVideoDetails apiKey videoId videosNet).1 = .error .videoNotFound) ∧
      ((videosNet = .ok ⟨[]⟩ ∨
          ∃ e toks, (mode = .comments ∨ mode = .both) ∧
            commentLoop
                (fun tok => (getComments apiKey videoId tok (commentsNet tok)).1)
                fuel none
              = some (.error e, toks)) →
        fetchAndPrepareDownloads apiKey videoId mode videosNet commentsNet tt fuel
          = none) := by
  constructor
  · rintro ⟨hnet, hk⟩
    subst hnet
    simp [getVideoDetails, hk]
  · intro h
    by_cases hk : apiKey = ""
    · simp [fetchAndPrepareDownloads, hk]
    by_cases hv : videoId = ""
    · simp [fetchAndPrepareDownloads, hk, hv]
    rcases h with hnet | ⟨e, toks, hmode, hloop⟩
    · subst hnet
      simp [fetchAndPrepareDownloads, hk, hv, getVideoDetails]
    · rw [fetchAndPrepareDownloads, if_neg hk, if_neg hv]
      rcases hdet : (getVideoDetails apiKey videoId videosNet).1 with e2 | details
      · rfl
      · simp only [if_pos hmode, hloop]

/-- Witness for C5: a zero-item metadata response yields the
video-not-found error and no documents, and a run whose second page fetch
fails produces no documents either. -/
theorem fetchAndPrepare_atomic_witness :
    (getVideoDetails "K" "XYZ" (.ok ⟨[]⟩)).1 = .error .videoNotFound ∧
      fetchAndPrepareDownloads "K" "XYZ" .comments (.ok ⟨[]⟩)
          (fun _ => .ok ⟨[], none⟩) "" 5 = none ∧
      fetchAndPrepareDownloads "K" "XYZ" .comments (.ok ⟨[⟨"T", "D"⟩]⟩)
          (fun tok => if tok = none then .ok ⟨[], some "t"⟩ else .error "boom") "" 5
        = none :=
  ⟨(fetchAndPrepare_atomic "K" "XYZ" .comments (.ok ⟨[]⟩)
      (fun _ => .ok ⟨[], none⟩) "" 5).1 ⟨rfl, by decide⟩,
   (fetchAndPrepare_atomic "K" "XYZ" .comments (.ok ⟨[]⟩)
      (fun _ => .ok ⟨[], none⟩) "" 5).2 (Or.inl rfl),
   (fetchAndPrepare_atomic "K" "XYZ" .comments (.ok ⟨[⟨"T", "D"⟩]⟩)
      (fun tok => if tok = none then .ok ⟨[], some "t"⟩ else .error "boom") "" 5).2
     (Or.inr ⟨.remoteRequestFailed "boom", [none, some "t"], Or.inl rfl, rfl⟩)⟩

/-- C1 (counterexample): the end-to-end scenario (credential "K",
identifier "XYZ", comments-only, title "Test Video", description "Desc",
one page with Author1/text1 + reply ReplyAuthor/replytext and
Author2/text2, no continuation token) produces exactly one document, but
its source line reads "Conteúdo extraído de:", not the
"Comentários extraídos de:" of the claim, so the produced content differs
from the claimed string. -/
theorem endToEnd_counterexample :
    fetchAndPrepareDownloads "K" "XYZ" .comments
        (.ok ⟨[⟨"Test Video", "Desc"⟩]⟩)
        (fun _ => .ok ⟨[⟨"i1", ⟨"Author1", "u1", "text1", "p1", 1⟩,
                         some ⟨[⟨"r1", ⟨"ReplyAuthor", "u2", "replytext", "p2", 0⟩⟩]⟩⟩,
                        ⟨"i2", ⟨"Author2", "u3", "text2", "p3", 2⟩, none⟩], none⟩)
        "" 5
      = some [⟨"Comentários_test_video.txt",
          "Test Video\n\nDesc\n\nConteúdo extraído de: https://www.youtube.com/watch?v=XYZ\n\n-------------------------------------------------------\n\nAuthor1: text1\n  ReplyAuthor: replytext\nAuthor2: text2\n"⟩] ∧
      "Test Video\n\nDesc\n\nConteúdo extraído de: https://www.youtube.com/watch?v=XYZ\n\n-------------------------------------------------------\n\nAuthor1: text1\n  ReplyAuthor: replytext\nAuthor2: text2\n"
        ≠ specScenarioContent := by
  constructor
  · rfl
  · decide

/-- C1 (amended): the end-to-end scenario produces exactly one document
whose content is the claimed string with its source line replaced by
"Conteúdo extraído de: https://www.youtube.com/watch?v=XYZ" (everything
else — header layout, separator, comment and indented reply lines —
exactly as claimed). -/
theorem endToEnd_amended :
    fetchAndPrepareDownloads "K" "XYZ" .comments
        (.ok ⟨[⟨"Test Video", "Desc"⟩]⟩)
        (fun _ => .ok ⟨[⟨"i1", ⟨"Author1", "u1", "text1", "p1", 1⟩,
                         some ⟨[⟨"r1", ⟨"ReplyAuthor", "u2", "replytext", "p2", 0⟩⟩]⟩⟩,
                        ⟨"i2", ⟨"Author2", "u3", "text2", "p3", 2⟩, none⟩], none⟩)
        "" 2
      = some [⟨"Comentários_test_video.txt",
          "Test Video\n\nDesc\n\nConteúdo extraído de: https://www.youtube.com/watch?v=XYZ\n\n-------------------------------------------------------\n\nAuthor1: text1\n  ReplyAuthor: replytext\nAuthor2: text2\n"⟩] := by
  rfl

end YtScraper
